import Mathlib

/- Shallow embedding of the core algorithms of the AIMS Sentinel-2 composite
pipeline (AU_NESP-MaC-3-17_AIMS_S2-comp): tide-type classification and
centroid lookup (src/utilities/tidePredictor.py), noise scoring and
noise-minimizing image selection (src/utilities/noise_predictor.py),
cloud/shadow masking (src/utilities/cloud_handler.py and
src/processors/s2processor.py), and composite building plus tide-stratified
and plain selection (src/processors/s2processor.py).  Machine floats are
modelled by exact rationals, with real-valued square roots and powers where
the source uses them. -/

/- ---------------------------------------------------------------------
Tide-type classification, TidePredictor (tidePredictor.py)
--------------------------------------------------------------------- -/

/-- String constant from the TIDE_TYPE inner class of TidePredictor. -/

def INCOMING_TIDE : String := "incoming tide"

/-- String constant from the TIDE_TYPE inner class of TidePredictor. -/

def PEAK_HIGH_TIDE : String := "peak high tide"

/-- String constant from the TIDE_TYPE inner class of TidePredictor. -/

def OUTGOING_TIDE : String := "outgoing tide"

/-- String constant from the TIDE_TYPE inner class of TidePredictor. -/

def PEAK_LOW_TIDE : String := "peak low tide"

/-- Tide-type classification from TidePredictor.get_tide_elevation
(tidePredictor.py lines 76-87).  The Python code initialises the type to the
empty string and runs chained comparisons over the three sampled elevations
(at the image time minus 2h, the image time, and plus 2h); when no branch
matches, the empty string is returned unchanged. -/

def tide_type_of (t0 t1 t2 : ℚ) : String :=
  if t0 > t1 ∧ t1 > t2 then OUTGOING_TIDE
  else if t0 < t1 ∧ t1 > t2 then PEAK_HIGH_TIDE
  else if t0 < t1 ∧ t1 < t2 then INCOMING_TIDE
  else if t0 > t1 ∧ t1 < t2 then PEAK_LOW_TIDE
  else ""

/- ---------------------------------------------------------------------
Water-centroid lookup, TidePredictor (tidePredictor.py)
--------------------------------------------------------------------- -/

/-- One row of data/sentinel2-study-area-water-centroids.csv as read by
numpy.genfromtxt in TidePredictor: a tile name and X/Y coordinates. -/

structure CentroidRow where
  name : String
  x : ℚ
  y : ℚ
deriving DecidableEq

/-- TidePredictor._get_tile_water_centroid (tidePredictor.py lines 89-93):
filter the structured array by the Name column matching the tile id and
return the Y column as lat and the X column as lon.  The function is total:
a tile id with no matching row simply yields empty coordinate arrays. -/

def get_tile_water_centroid (table : List CentroidRow) (tile_id : String) :
    List ℚ × List ℚ :=
  let filtered_data := table.filter (fun r => r.name = tile_id)
  (filtered_data.map CentroidRow.y, filtered_data.map CentroidRow.x)

/- ---------------------------------------------------------------------
Generic stable key sort (models Python sorted(key=...) and the Earth Engine
sort/limit on a metadata property)
--------------------------------------------------------------------- -/

/-- Insert an element into a list in front of the first element whose key is
not smaller; used to model Python's stable ascending sort. -/

def insertLe {α : Type} (key : α → ℚ) (a : α) : List α → List α
  | [] => [a]
  | b :: l => if key a ≤ key b then a :: b :: l else b :: insertLe key a l

/-- Stable ascending insertion sort by a rational key; models Python
sorted(l, key=...) and ee.ImageCollection.sort on a numeric property. -/

def sortByKey {α : Type} (key : α → ℚ) : List α → List α
  | [] => []
  | a :: l => insertLe key a (sortByKey key l)

/- ---------------------------------------------------------------------
Composite-noise statistic, NoisePredictor (noise_predictor.py)
--------------------------------------------------------------------- -/

/-- Transformed scores from NoisePredictor.calculate_noise_in_property_list
(noise_predictor.py line 90): each noise score gets the benefit term
3 / (index + 1) for its 0-based position in the list. -/

def transformedScores (l : List ℚ) : List ℚ :=
  l.enum.map (fun p => p.2 + 3 / ((p.1 : ℚ) + 1))

/-- Mean of the transformed scores (np.mean at noise_predictor.py line 93),
in exact rational arithmetic. -/

def noiseAverage (l : List ℚ) : ℚ :=
  (transformedScores l).sum / (l.length : ℚ)

/-- NoisePredictor.calculate_noise_in_property_list (noise_predictor.py lines
87-101): the mean of the transformed scores divided by the square root of the
number of scores. -/

noncomputable def calculate_noise_in_property_list (l : List ℚ) : ℝ :=
  (noiseAverage l : ℝ) / Real.sqrt (l.length : ℝ)

/-- Decides whether a1 / sqrt n1 > a2 / sqrt n2 (for positive counts n1, n2)
using only rational arithmetic, by case analysis on signs followed by
comparison of squares.  This is the comparison performed in floating point at
noise_predictor.py line 65. -/

def levelGT (a1 : ℚ) (n1 : ℕ) (a2 : ℚ) (n2 : ℕ) : Bool :=
  if 0 ≤ a1 then
    if 0 ≤ a2 then decide (a2 ^ 2 * (n1 : ℚ) < a1 ^ 2 * (n2 : ℚ)) else true
  else
    if 0 ≤ a2 then false else decide (a1 ^ 2 * (n2 : ℚ) < a2 ^ 2 * (n1 : ℚ))

/- ---------------------------------------------------------------------
Noise-minimizing selection, NoisePredictor.filter_noise_adding_images
(noise_predictor.py lines 10-85)
--------------------------------------------------------------------- -/

/-- The extension loop of filter_noise_adding_images (noise_predictor.py
lines 59-71).  The accepted prefix is filtered; its statistic is the running
base level; endRow is the Python loop variable and fuel the number of
remaining loop iterations (the Python loop runs for
end_row = min+1, ..., len(props) - 1).  An extension whose statistic is
greater than the running level is discarded and the loop stops (break);
otherwise the extension becomes the accepted prefix. -/

def noiseSelectLoop (props : List ℚ) : ℕ → List ℚ → ℕ → List ℚ
  | 0, filtered, _ => filtered
  | fuel + 1, filtered, endRow =>
    let next := props.take endRow
    if levelGT (noiseAverage next) next.length (noiseAverage filtered) filtered.length
    then filtered
    else noiseSelectLoop props fuel next (endRow + 1)

/-- NoisePredictor.filter_noise_adding_images (noise_predictor.py lines
10-85) acting on the list of per-image noise scores: sort ascending by
noise index, drop all scores at or above the hard cutoff 15, seed the
selection with the first min_images_in_collection scores, then run the
extension loop for end_row in range(min_images_in_collection + 1,
len(noise_properties_list)). -/

def filter_noise_adding_images (scores : List ℚ) (min_images_in_collection : ℕ) :
    List ℚ :=
  let props := (sortByKey id scores).filter (fun x => x < 15)
  noiseSelectLoop props (props.length - (min_images_in_collection + 1))
    (props.take min_images_in_collection) (min_images_in_collection + 1)

/- ---------------------------------------------------------------------
Plain composite selection, Sentinel2Processor.get_composite
(s2processor.py lines 60-91)
--------------------------------------------------------------------- -/

/-- Per-image metadata visible to the selection code: the Earth Engine
property CLOUDY_PIXEL_PERCENTAGE together with the derived fields (noise
index, tide elevation, tide type) that get_composite never consults, and an
identity index. -/

structure SceneMeta where
  systemIndex : ℕ
  cloudyPixelPercentage : ℚ
  noiseIndex : ℚ
  tideElevation : ℚ
  tideType : String
deriving DecidableEq

/-- The selection step of Sentinel2Processor.get_composite (s2processor.py
lines 83-85): composite_collection.limit(max_images_in_collection,
"CLOUDY_PIXEL_PERCENTAGE", True) sorts the collection ascending by the
per-image cloud-cover percentage and keeps the first
max_images_in_collection images.  No noise-based or tide-based filtering
occurs anywhere in get_composite. -/

def get_composite_selection (max_images_in_collection : ℕ)
    (coll : List SceneMeta) : List SceneMeta :=
  (sortByKey SceneMeta.cloudyPixelPercentage coll).take max_images_in_collection

/- ---------------------------------------------------------------------
Tide-stratified low-tide selection, Sentinel2Processor.get_low_tide_composite
(s2processor.py lines 93-245)
--------------------------------------------------------------------- -/

/-- Per-image tide properties collected per orbit segment in
get_low_tide_composite (s2processor.py lines 147-184): an identity index,
the predicted tide elevation and the tide type string. -/

structure TideProp where
  systemIndex : ℕ
  tideElevation : ℚ
  tideType : String
deriving DecidableEq

/-- Priority order of tide-type categories for the default focus
tide_type_focus = OUTGOING_TIDE (s2processor.py lines 120-125). -/

def tideTypeOrderOutgoing : List String :=
  [OUTGOING_TIDE, PEAK_LOW_TIDE, INCOMING_TIDE]

/-- Below-mean-sea-level candidates of one orbit segment, sorted ascending
by tide elevation (s2processor.py lines 186-196): only entries with negative
tide elevation pass this filter. -/

def below_msl_sorted (props : List TideProp) : List TideProp :=
  sortByKey TideProp.tideElevation (props.filter (fun e => e.tideElevation < 0))

/-- Greedy tide-type priority stage (s2processor.py lines 198-207): for each
category in the priority order, if fewer than min_images images have been
collected so far, append all below-MSL candidates of that category. -/

def tide_stage_list (order : List String) (min_images : ℕ)
    (props : List TideProp) : List TideProp :=
  order.foldl (fun acc tt =>
    if acc.length < min_images
    then acc ++ (below_msl_sorted props).filter (fun e => e.tideType = tt)
    else acc) []

/-- Incoming-tide fallback (s2processor.py lines 209-217): if the priority
stages are still short of min_images, append all below-MSL incoming-tide
candidates. -/

def tide_stage_with_incoming (order : List String) (min_images : ℕ)
    (props : List TideProp) : List TideProp :=
  let s := tide_stage_list order min_images props
  if s.length < min_images
  then s ++ (below_msl_sorted props).filter (fun e => e.tideType = INCOMING_TIDE)
  else s

/-- Per-orbit-segment selection of get_low_tide_composite (s2processor.py
lines 186-230): priority stages and incoming fallback over the below-MSL
candidates; if the result is still short of min_images, the final fallback
sorts the FULL (unfiltered) property list by elevation and takes the first
max_images entries; otherwise the staged list is truncated to max_images. -/

def select_low_tide_images (order : List String) (min_images max_images : ℕ)
    (props : List TideProp) : List TideProp :=
  let s := tide_stage_with_incoming order min_images props
  if s.length < min_images
  then (sortByKey TideProp.tideElevation props).take max_images
  else s.take max_images

/- ---------------------------------------------------------------------
Per-image noise score, NoisePredictor.calculate_image_noise
(noise_predictor.py lines 103-152)
--------------------------------------------------------------------- -/

/-- The bands of one Sentinel-2 image used by calculate_image_noise, as
per-pixel rational reflectances over the n pixels of the image footprint. -/

structure NoiseBands (n : ℕ) where
  B3 : Fin n → ℚ
  B8 : Fin n → ℚ
  B11 : Fin n → ℚ
  B12 : Fin n → ℚ

/-- NDWI-style normalized difference of B3 and B8
(noise_predictor.py lines 118-121). -/

def ndwi {n : ℕ} (img : NoiseBands n) (p : Fin n) : ℚ :=
  (img.B3 p - img.B8 p) / (img.B3 p + img.B8 p)

/-- Water mask: NDWI greater than zero (noise_predictor.py line 120). -/

def water_mask {n : ℕ} (img : NoiseBands n) (p : Fin n) : Bool :=
  decide (0 < ndwi img p)

/-- Sun-glint/noise mask (noise_predictor.py lines 126-131): B8 above the
NIR threshold 0.08, or the mean of B11 and B12 above the SWIR threshold
0.03. -/

def noise_mask {n : ℕ} (img : NoiseBands n) (p : Fin n) : Bool :=
  decide (8 / 100 < img.B8 p) || decide (3 / 100 < (img.B11 p + img.B12 p) / 2)

/-- The reduceRegion mean of the water-masked noise mask over the image
geometry (noise_predictor.py lines 133-143): none when no pixel is left
unmasked (no water pixels), otherwise the mean of the 0/1 mask values over
the water pixels. -/

def noise_proportion {n : ℕ} (img : NoiseBands n) : Option ℚ :=
  let water := Finset.univ.filter (fun p => water_mask img p = true)
  if water.card = 0 then none
  else some (((water.filter (fun p => noise_mask img p = true)).card : ℚ) /
    (water.card : ℚ))

/-- NoisePredictor.calculate_image_noise (noise_predictor.py lines 103-152):
a total function from the image to its noise index.  The undefined-mean case
is mapped by ee.Algorithms.If to the sentinel 99999999; otherwise the
proportion is amplified as (value * 100 + 1.5) ** 0.6. -/

noncomputable def calculate_image_noise {n : ℕ} (img : NoiseBands n) : ℝ :=
  match noise_proportion img with
  | none => 99999999
  | some v => ((v : ℝ) * 100 + 3 / 2) ^ ((3 / 5 : ℝ))

/-- A one-pixel image with no water: B3 = 0 and B8 = 1 give negative NDWI
everywhere. -/

def noWaterImage : NoiseBands 1 :=
  ⟨fun _ => 0, fun _ => 1, fun _ => 0, fun _ => 0⟩

/- ---------------------------------------------------------------------
Cloud and shadow masking, CloudHandler._get_s2_cloud_shadow_mask and
_add_s2_cloud_shadow_mask (cloud_handler.py lines 73-297; the identical
code also lives in s2processor.py lines 602-825)
--------------------------------------------------------------------- -/

/-- Raster geometry of one tile for the Earth Engine focal and directional
operators: focal d p is the kernel neighbourhood of pixel p for a filter of
radius d (the centre pixel always belongs to the kernel, which the
definitions below enforce with an insert), and dirWindow az d p is the set
of pixels whose cloud is projected onto p by
directionalDistanceTransform(az, d).  The metre-to-pixel scale bookkeeping
of the source (erosion_scale, buffer_scale, the fixed 100 m reprojection) is
absorbed into these neighbourhood functions. -/

structure RasterGeom (P : Type) [DecidableEq P] where
  focal : ℚ → P → Finset P
  dirWindow : ℚ → ℚ → P → Finset P

/-- Earth Engine focal_max (dilation): true when any pixel of the kernel
neighbourhood is true. -/

def focal_max {P : Type} [DecidableEq P] (G : RasterGeom P) (d : ℚ)
    (b : P → Bool) (p : P) : Bool :=
  decide (∃ q ∈ insert p (G.focal d p), b q = true)

/-- Earth Engine focal_min (erosion): true when every pixel of the kernel
neighbourhood is true. -/

def focal_min {P : Type} [DecidableEq P] (G : RasterGeom P) (d : ℚ)
    (b : P → Bool) (p : P) : Bool :=
  decide (∀ q ∈ insert p (G.focal d p), b q = true)

/-- Mask of directionalDistanceTransform(azimuth, distance) followed by
select distance and mask() (cloud_handler.py lines 264-272): a pixel is
covered when it is itself a source pixel or some source pixel lies in its
directional window. -/

def ddt_mask {P : Type} [DecidableEq P] (G : RasterGeom P) (az d : ℚ)
    (b : P → Bool) (p : P) : Bool :=
  b p || decide (∃ q ∈ G.dirWindow az d p, b q = true)

/-- Per-image inputs of the cloud-shadow mask: the s2cloudless probability
band (percent), the B8 band and the scene MEAN_SOLAR_AZIMUTH_ANGLE. -/

structure CloudImage (P : Type) where
  probability : P → ℚ
  B8 : P → ℚ
  meanSolarAzimuth : ℚ

/-- CloudHandler._get_s2_cloud_shadow_mask (cloud_handler.py lines 152-297):
threshold the cloud probability at cloud_prob_thresh; when erosion > 0 run
focal_min then focal_max over the eroded scale; project the result along the
shadow azimuth 90 - MEAN_SOLAR_AZIMUTH_ANGLE for cloud_proj_dist * 10;
the dark-pixel mask (B8 < 0.15) is computed by the source but the active
code path sets is_cloud_or_shadow = cloud_proj (line 282), so dark pixels and
the shadows product do not enter the result; finally dilate by the buffer
distance. -/

def get_s2_cloud_shadow_mask {P : Type} [DecidableEq P] (G : RasterGeom P)
    (img : CloudImage P)
    (cloud_prob_thresh erosion cloud_proj_dist buffer : ℚ) (p : P) : Bool :=
  let is_cloud : P → Bool := fun q => decide (cloud_prob_thresh < img.probability q)
  let is_cloud_erosion_dilation : P → Bool :=
    if 0 < erosion
    then focal_max G erosion (focal_min G erosion is_cloud)
    else is_cloud
  let shadow_azimuth := 90 - img.meanSolarAzimuth
  let cloud_proj :=
    ddt_mask G shadow_azimuth (cloud_proj_dist * 10) is_cloud_erosion_dilation
  let is_cloud_or_shadow := cloud_proj
  focal_max G buffer is_cloud_or_shadow p

/-- The low-cloud pass of _add_s2_cloud_shadow_mask (cloud_handler.py lines
111-129): probability threshold 35, no erosion, 0.4 km projection, 150 m
buffer. -/

def low_cloud_mask {P : Type} [DecidableEq P] (G : RasterGeom P)
    (img : CloudImage P) : P → Bool :=
  get_s2_cloud_shadow_mask G img 35 0 (4 / 10) 150

/-- The high-cloud pass of _add_s2_cloud_shadow_mask (cloud_handler.py lines
131-141): probability threshold 80, 300 m erosion, 1.5 km projection, 300 m
buffer. -/

def high_cloud_mask {P : Type} [DecidableEq P] (G : RasterGeom P)
    (img : CloudImage P) : P → Bool :=
  get_s2_cloud_shadow_mask G img 80 300 (3 / 2) 300

/-- Combination of the two passes (cloud_handler.py line 144):
cloud_mask = high_cloud_mask.add(low_cloud_mask).gt(0) on the 0/1 bands. -/

def combined_cloud_mask {P : Type} [DecidableEq P] (G : RasterGeom P)
    (img : CloudImage P) (p : P) : Bool :=
  decide (0 < (if high_cloud_mask G img p then (1 : ℕ) else 0) +
    (if low_cloud_mask G img p then (1 : ℕ) else 0))

/-- A trivial one-pixel raster geometry with empty kernels and windows. -/

def trivialGeom : RasterGeom (Fin 1) :=
  ⟨fun _ _ => ∅, fun _ _ _ => ∅⟩

/-- A one-pixel cloud-probability image that is zero everywhere. -/

def clearImage : CloudImage (Fin 1) :=
  ⟨fun _ => 0, fun _ => 1, 0⟩

/- ---------------------------------------------------------------------
Composite building, Sentinel2Processor._create_composite
(s2processor.py lines 247-315)
--------------------------------------------------------------------- -/

/-- An Earth Engine image over pixel type P: an ordered list of named bands
(a band value of none is a masked / no-data pixel) together with a footprint
predicate.  Reduce outputs carry a pseudo-global footprint, which is the bug
the source comments describe (s2processor.py lines 306-312) and the reason
_create_composite ends with a clip. -/

structure EEImage (P : Type) where
  bands : List (String × (P → Option ℚ))
  geom : P → Bool

/-- Band lookup by name (first match), as in ee.Image.select of a single
name. -/

def getBand {P : Type} (img : EEImage P) (n : String) :
    Option (P → Option ℚ) :=
  (img.bands.find? (fun nb => nb.1 == n)).map Prod.snd

/-- The value of the named band at one pixel; none when the band is absent
or the pixel is masked. -/

def bandValue {P : Type} (img : EEImage P) (n : String) (px : P) : Option ℚ :=
  (getBand img n).bind (fun f => f px)

/-- The unmasked values of band n at pixel px across a collection. -/

def collValues {P : Type} (coll : List (EEImage P)) (n : String) (px : P) :
    List ℚ :=
  coll.filterMap (fun i => bandValue i n px)

/-- Nearest-rank model of ee.Reducer.percentile([p]) at one pixel: the entry
of the ascending-sorted unmasked values at index floor(p/100 * count),
clamped to the last index; none when every input is masked. -/

def percentileOfList (p : ℚ) (vals : List ℚ) : Option ℚ :=
  let sorted := sortByKey id vals
  if sorted.length = 0 then none
  else sorted.getD (min (sorted.length - 1)
    (Int.toNat ⌊p / 100 * (sorted.length : ℚ)⌋)) 0

/-- ImageCollection.reduce(ee.Reducer.percentile([p], [label])): one output
band per band of the collection (whose images share band names, so the
band layout is taken from the first image; an empty collection yields a
band-less image), named band_label and holding the per-pixel percentile of
the unmasked values across the collection.  The output footprint is
pseudo-global. -/

def reducePercentile {P : Type} (p : ℚ) (label : String)
    (coll : List (EEImage P)) : EEImage P :=
  match coll with
  | [] => ⟨[], fun _ => true⟩
  | img :: _ =>
    ⟨img.bands.map (fun nb =>
      (nb.1 ++ "_" ++ label,
       fun px => percentileOfList p (collValues coll nb.1 px))),
     fun _ => true⟩

/-- ee.Image.rename with a full list of names: positional renaming that
fails when the number of names does not match the number of bands (which is
what happens server-side when the reduce of an empty collection is
renamed). -/

def renameBands {P : Type} (names : List String) (img : EEImage P) :
    Except String (EEImage P) :=
  if names.length = img.bands.length
  then .ok ⟨names.zip (img.bands.map Prod.snd), img.geom⟩
  else .error "Image.rename: the number of names does not match the number of bands"

/-- ee.Image.select with a list of names: the named bands in the order of
the name list. -/

def selectBands {P : Type} (names : List String) (img : EEImage P) :
    EEImage P :=
  ⟨names.filterMap (fun n => (getBand img n).map (fun f => (n, f))), img.geom⟩

/-- ee.ImageCollection([a, b]).mosaic(): the last image is on top, so every
band takes b's value where b is unmasked and falls back to a's value. -/

def mosaic2 {P : Type} (a b : EEImage P) : EEImage P :=
  ⟨a.bands.map (fun nb => (nb.1, fun px => (bandValue b nb.1 px).or (nb.2 px))),
   fun px => a.geom px || b.geom px⟩

/-- ee.Image.addBands: append the bands of the second image. -/

def addBands {P : Type} (a b : EEImage P) : EEImage P :=
  ⟨a.bands ++ b.bands, a.geom⟩

/-- ee.Image.clip: mask every band outside the given geometry. -/

def clipImage {P : Type} (g : P → Bool) (img : EEImage P) : EEImage P :=
  ⟨img.bands.map (fun nb => (nb.1, fun px => if g px then nb.2 px else none)),
   fun px => img.geom px && g px⟩

/-- collection.geometry().dissolve(): the union of the collection
footprints. -/

def dissolveGeom {P : Type} (coll : List (EEImage P)) : P → Bool :=
  fun px => coll.any (fun i => i.geom px)

/-- The 16 Sentinel-2 band names img_bands of _create_composite
(s2processor.py lines 249-266). -/

def img_bands : List String :=
  ["B1", "B2", "B3", "B4", "B5", "B6", "B7", "B8", "B8A", "B9", "B10",
   "B11", "B12", "QA10", "QA20", "QA60"]

/-- composite_collection_no_cloud_mask (s2processor.py lines 268-271; the
composite A of the spec): percentile-50 reduction of the collection without
cloud masking, renamed back to the plain band names. -/

def composite_no_cloud_mask {P : Type} (coll : List (EEImage P)) :
    Except String (EEImage P) :=
  renameBands img_bands (reducePercentile 50 "p50" coll)

/-- composite_collection_with_cloud_mask (s2processor.py lines 275-279; the
composite B of the spec): percentile-15 reduction of the cloud-masked
collection, renamed to the plain band names plus cloudmask. -/

def composite_with_cloud_mask {P : Type} (maskClouds : EEImage P → EEImage P)
    (coll : List (EEImage P)) : Except String (EEImage P) :=
  renameBands (img_bands ++ ["cloudmask"])
    (reducePercentile 15 "p15" (coll.map maskClouds))

/-- Sentinel2Processor._create_composite (s2processor.py lines 247-315),
parameterised by the cloud-masking map self.mask_clouds: reduce the unmasked
collection at percentile 50; when the collection has more than one image
also reduce the cloud-masked collection at percentile 15, split off its
cloudmask band, layer the cloud-masked composite over the unmasked one and
add the cloudmask band back; finally clip to the dissolved collection
geometry.  Server-side failures (such as the rename of a band-less reduce
output) surface as errors when the composite is evaluated. -/

def create_composite {P : Type} (maskClouds : EEImage P → EEImage P)
    (coll : List (EEImage P)) : Except String (EEImage P) :=
  match composite_no_cloud_mask coll with
  | .error e => .error e
  | .ok no_cloud =>
    if 1 < coll.length then
      match composite_with_cloud_mask maskClouds coll with
      | .error e => .error e
      | .ok with_cloud_full =>
        let cloudmask := selectBands ["cloudmask"] with_cloud_full
        let with_cloud := selectBands img_bands with_cloud_full
        .ok (clipImage (dissolveGeom coll)
          (addBands (mosaic2 no_cloud with_cloud) cloudmask))
    else
      .ok (clipImage (dissolveGeom coll) no_cloud)

/-- The band value of the image inside an ok result; none on error. -/

def okBandValue {P : Type} (r : Except String (EEImage P)) (n : String)
    (px : P) : Option ℚ :=
  match r with
  | .ok img => bandValue img n px
  | .error _ => none

/-- A one-pixel image whose 16 standard bands all hold the constant value
v and which covers the whole pixel grid. -/

def constImage (v : ℚ) : EEImage (Fin 1) :=
  ⟨img_bands.map (fun n => (n, fun _ => some v)), fun _ => true⟩

/-- A cloud-masking stand-in that masks nothing: it leaves every band
unchanged and adds an all-clear cloudmask band, as self.mask_clouds does for
a cloud-free image. -/

def addZeroCloudmask {P : Type} (img : EEImage P) : EEImage P :=
  addBands img ⟨[("cloudmask", fun _ => some 0)], img.geom⟩

/- ---------------------------------------------------------------------
Theorems
--------------------------------------------------------------------- -/

theorem insertLe_perm {α : Type} (key : α → ℚ) (a : α) (l : List α) :
    List.Perm (insertLe key a l) (a :: l) := by
  induction l with
  | nil => simp [insertLe]
  | cons b l ih =>
    by_cases h : key a ≤ key b
    · simp [insertLe, h]
    · simp only [insertLe, h, if_false]
      exact (List.Perm.cons b ih).trans (List.Perm.swap a b l)

theorem sortByKey_perm {α : Type} (key : α → ℚ) (l : List α) :
    List.Perm (sortByKey key l) l := by
  induction l with
  | nil => simp [sortByKey]
  | cons a l ih =>
    exact (insertLe_perm key a (sortByKey key l)).trans (List.Perm.cons a ih)

theorem mem_sortByKey {α : Type} (key : α → ℚ) (l : List α) (a : α) :
    a ∈ sortByKey key l ↔ a ∈ l :=
  (sortByKey_perm key l).mem_iff

theorem length_sortByKey {α : Type} (key : α → ℚ) (l : List α) :
    (sortByKey key l).length = l.length :=
  (sortByKey_perm key l).length_eq

theorem insertLe_sorted {α : Type} (key : α → ℚ) (a : α) (l : List α)
    (h : l.Pairwise (fun x y => key x ≤ key y)) :
    (insertLe key a l).Pairwise (fun x y => key x ≤ key y) := by
  induction l with
  | nil => simp [insertLe]
  | cons b l ih =>
    rcases List.pairwise_cons.mp h with ⟨hb, hl⟩
    by_cases hab : key a ≤ key b
    · simp only [insertLe]
      rw [if_pos hab]
      refine List.pairwise_cons.mpr ⟨?_, h⟩
      intro x hx
      rcases List.mem_cons.mp hx with rfl | hx
      · exact hab
      · exact le_trans hab (hb x hx)
    · simp only [insertLe]
      rw [if_neg hab]
      refine List.pairwise_cons.mpr ⟨?_, ih hl⟩
      intro x hx
      rcases List.mem_cons.mp ((insertLe_perm key a l).mem_iff.mp hx) with rfl | hx
      · exact le_of_lt (lt_of_not_le hab)
      · exact hb x hx

theorem sortByKey_sorted {α : Type} (key : α → ℚ) (l : List α) :
    (sortByKey key l).Pairwise (fun x y => key x ≤ key y) := by
  induction l with
  | nil => simp [sortByKey]
  | cons a l ih => exact insertLe_sorted key a _ ih

theorem insertLe_map {α β : Type} (keyA : α → ℚ) (keyB : β → ℚ)
    (f : α → β) (hf : ∀ x, keyB (f x) = keyA x) (a : α) (l : List α) :
    insertLe keyB (f a) (l.map f) = (insertLe keyA a l).map f := by
  induction l with
  | nil => simp [insertLe]
  | cons b l ih =>
    by_cases h : keyA a ≤ keyA b
    · simp [insertLe, hf, h]
    · simp [insertLe, hf, h, ih]

theorem sortByKey_map {α β : Type} (keyA : α → ℚ) (keyB : β → ℚ)
    (f : α → β) (hf : ∀ x, keyB (f x) = keyA x) (l : List α) :
    sortByKey keyB (l.map f) = (sortByKey keyA l).map f := by
  induction l with
  | nil => simp [sortByKey]
  | cons a l ih =>
    simp only [List.map, sortByKey, ih]
    exact insertLe_map keyA keyB f hf a _

theorem mul_self_lt_iff_of_nonneg (x y : ℝ) (hx : 0 ≤ x) (hy : 0 ≤ y) :
    x < y ↔ x * x < y * y := by
  constructor
  · intro h
    exact mul_self_lt_mul_self hx h
  · intro h
    by_contra hle
    push_neg at hle
    nlinarith

/-- The rational comparator levelGT decides the real inequality between the
two standard-error style statistics. -/

theorem levelGT_iff (a1 a2 : ℚ) (n1 n2 : ℕ) (h1 : 0 < n1) (h2 : 0 < n2) :
    levelGT a1 n1 a2 n2 = true ↔
      (a2 : ℝ) / Real.sqrt (n2 : ℝ) < (a1 : ℝ) / Real.sqrt (n1 : ℝ) := by
  have hn1 : (0 : ℝ) < (n1 : ℝ) := by exact_mod_cast h1
  have hn2 : (0 : ℝ) < (n2 : ℝ) := by exact_mod_cast h2
  have hs1 : (0 : ℝ) < Real.sqrt (n1 : ℝ) := Real.sqrt_pos.mpr hn1
  have hs2 : (0 : ℝ) < Real.sqrt (n2 : ℝ) := Real.sqrt_pos.mpr hn2
  have sqmul : ∀ (x : ℝ) (k : ℕ),
      x * Real.sqrt (k : ℝ) * (x * Real.sqrt (k : ℝ)) = x ^ 2 * (k : ℝ) := by
    intro x k
    have h := Real.mul_self_sqrt (by positivity : (0 : ℝ) ≤ (k : ℝ))
    linear_combination (x ^ 2) * h
  rw [div_lt_div_iff₀ hs2 hs1]
  by_cases ha1 : 0 ≤ a1
  · have ha1r : (0 : ℝ) ≤ (a1 : ℝ) := by exact_mod_cast ha1
    by_cases ha2 : 0 ≤ a2
    · have ha2r : (0 : ℝ) ≤ (a2 : ℝ) := by exact_mod_cast ha2
      have hval : levelGT a1 n1 a2 n2 = decide (a2 ^ 2 * (n1 : ℚ) < a1 ^ 2 * (n2 : ℚ)) := by
        simp [levelGT, ha1, ha2]
      rw [hval, decide_eq_true_eq,
        mul_self_lt_iff_of_nonneg ((a2 : ℝ) * Real.sqrt (n1 : ℝ))
          ((a1 : ℝ) * Real.sqrt (n2 : ℝ)) (mul_nonneg ha2r hs1.le) (mul_nonneg ha1r hs2.le),
        sqmul, sqmul]
      exact_mod_cast Iff.rfl
    · have ha2r : (a2 : ℝ) < 0 := by exact_mod_cast lt_of_not_le ha2
      have hval : levelGT a1 n1 a2 n2 = true := by
        simp [levelGT, ha1, ha2]
      have hr : (a2 : ℝ) * Real.sqrt (n1 : ℝ) < (a1 : ℝ) * Real.sqrt (n2 : ℝ) :=
        lt_of_lt_of_le (mul_neg_of_neg_of_pos ha2r hs1) (mul_nonneg ha1r hs2.le)
      exact iff_of_true hval hr
  · have ha1r : (a1 : ℝ) < 0 := by exact_mod_cast lt_of_not_le ha1
    by_cases ha2 : 0 ≤ a2
    · have ha2r : (0 : ℝ) ≤ (a2 : ℝ) := by exact_mod_cast ha2
      have hval : levelGT a1 n1 a2 n2 = false := by
        simp [levelGT, ha1, ha2]
      have hr : ¬ ((a2 : ℝ) * Real.sqrt (n1 : ℝ) < (a1 : ℝ) * Real.sqrt (n2 : ℝ)) :=
        not_lt.mpr (le_trans (mul_neg_of_neg_of_pos ha1r hs2).le (mul_nonneg ha2r hs1.le))
      exact iff_of_false (by simp [hval]) hr
    · have ha2r : (a2 : ℝ) < 0 := by exact_mod_cast lt_of_not_le ha2
      have hval : levelGT a1 n1 a2 n2 = decide (a1 ^ 2 * (n2 : ℚ) < a2 ^ 2 * (n1 : ℚ)) := by
        simp [levelGT, ha1, ha2]
      have key : ((a2 : ℝ) * Real.sqrt (n1 : ℝ) < (a1 : ℝ) * Real.sqrt (n2 : ℝ)) ↔
          (-((a1 : ℝ) * Real.sqrt (n2 : ℝ)) < -((a2 : ℝ) * Real.sqrt (n1 : ℝ))) := by
        constructor <;> intro h <;> linarith
      rw [hval, decide_eq_true_eq, key,
        mul_self_lt_iff_of_nonneg (-((a1 : ℝ) * Real.sqrt (n2 : ℝ)))
          (-((a2 : ℝ) * Real.sqrt (n1 : ℝ)))
          (by nlinarith) (by nlinarith)]
      have e1 : -((a1 : ℝ) * Real.sqrt (n2 : ℝ)) * -((a1 : ℝ) * Real.sqrt (n2 : ℝ)) =
          (a1 : ℝ) ^ 2 * (n2 : ℝ) := by
        rw [neg_mul_neg]
        exact sqmul _ _
      have e2 : -((a2 : ℝ) * Real.sqrt (n1 : ℝ)) * -((a2 : ℝ) * Real.sqrt (n1 : ℝ)) =
          (a2 : ℝ) ^ 2 * (n1 : ℝ) := by
        rw [neg_mul_neg]
        exact sqmul _ _
      rw [e1, e2]
      exact_mod_cast Iff.rfl

/- ---------------------------------------------------------------------
Theorems
--------------------------------------------------------------------- -/

/-- C1: the noise-minimizing selection loop has an off-by-one bound: the
Python loop for end_row in range(min+1, len(list)) stops before end_row =
len(list), so the final image of the sorted list is never tested.  On the
score list [0, 0, 0] with min_images_in_collection = 1 the composite-noise
statistic strictly decreases for every extension (2 images are quieter than
1, and 3 quieter than 2), yet the code returns only the first two images
instead of the whole list as the claim states. -/

theorem filter_noise_last_image_never_tested :
    filter_noise_adding_images [0, 0, 0] 1 = [0, 0] ∧
    calculate_noise_in_property_list [0, 0] < calculate_noise_in_property_list [0] ∧
    calculate_noise_in_property_list [0, 0, 0] < calculate_noise_in_property_list [0, 0] := by
  refine ⟨?_, ?_, ?_⟩
  · norm_num [filter_noise_adding_images, sortByKey, insertLe, noiseSelectLoop,
      levelGT, noiseAverage, transformedScores, List.enum, List.enumFrom]
  · have h := (levelGT_iff (noiseAverage [0]) (noiseAverage [0, 0])
      (List.length ([0] : List ℚ)) (List.length ([0, 0] : List ℚ))
      (by decide) (by decide)).mp
      (by norm_num [levelGT, noiseAverage, transformedScores, List.enum, List.enumFrom])
    simpa [calculate_noise_in_property_list] using h
  · have h := (levelGT_iff (noiseAverage [0, 0]) (noiseAverage [0, 0, 0])
      (List.length ([0, 0] : List ℚ)) (List.length ([0, 0, 0] : List ℚ))
      (by decide) (by decide)).mp
      (by norm_num [levelGT, noiseAverage, transformedScores, List.enum, List.enumFrom])
    simpa [calculate_noise_in_property_list] using h

/-- C2: the tide-type classification of TidePredictor.get_tide_elevation
maps strictly decreasing samples to outgoing tide, strictly increasing to
incoming tide, a local maximum to peak high tide, a local minimum to peak
low tide, and any pattern with a tie between adjacent samples to the empty
string, a fifth value distinct from the four named tide types; the concrete
sample triples of the spec classify as stated. -/

theorem tide_classification_cases :
    (∀ t0 t1 t2 : ℚ,
      (t0 > t1 → t1 > t2 → tide_type_of t0 t1 t2 = OUTGOING_TIDE) ∧
      (t0 < t1 → t1 < t2 → tide_type_of t0 t1 t2 = INCOMING_TIDE) ∧
      (t0 < t1 → t1 > t2 → tide_type_of t0 t1 t2 = PEAK_HIGH_TIDE) ∧
      (t0 > t1 → t1 < t2 → tide_type_of t0 t1 t2 = PEAK_LOW_TIDE) ∧
      (t0 = t1 ∨ t1 = t2 → tide_type_of t0 t1 t2 = "")) ∧
    ("" ≠ OUTGOING_TIDE ∧ "" ≠ INCOMING_TIDE ∧ "" ≠ PEAK_HIGH_TIDE ∧ "" ≠ PEAK_LOW_TIDE) ∧
    tide_type_of 5 3 1 = OUTGOING_TIDE ∧
    tide_type_of 1 3 5 = INCOMING_TIDE ∧
    tide_type_of 1 5 3 = PEAK_HIGH_TIDE ∧
    tide_type_of 5 1 3 = PEAK_LOW_TIDE ∧
    tide_type_of 3 3 3 = "" := by
  refine ⟨?_, by decide, by norm_num [tide_type_of], by norm_num [tide_type_of],
    by norm_num [tide_type_of], by norm_num [tide_type_of], by norm_num [tide_type_of]⟩
  intro t0 t1 t2
  refine ⟨?_, ?_, ?_, ?_, ?_⟩
  · intro h01 h12
    simp [tide_type_of, h01, h12]
  · intro h01 h12
    simp [tide_type_of, h01, h12, not_lt_of_gt h01, lt_asymm h01, lt_asymm h12]
  · intro h01 h12
    simp [tide_type_of, h01, h12, lt_asymm h01]
  · intro h01 h12
    simp [tide_type_of, h01, h12, lt_asymm h01, lt_asymm h12]
  · intro h
    rcases h with rfl | rfl
    · simp [tide_type_of, lt_irrefl]
    · simp [tide_type_of, lt_irrefl]

/-- Closed instance of the classification theorem at a concrete sample
triple, discharging its hypotheses. -/

theorem tide_classification_cases_witness :
    tide_type_of 2 1 0 = OUTGOING_TIDE :=
  ((tide_classification_cases.1 2 1 0).1) (by norm_num) (by norm_num)

theorem enumFrom_add_sum (l : List ℚ) :
    ∀ n : ℕ, ((List.enumFrom n l).map (fun p => p.2 + 3 / ((p.1 : ℚ) + 1))).sum =
      ∑ i in Finset.range l.length, (l.getD i 0 + 3 / (((n + i : ℕ) : ℚ) + 1)) := by
  induction l with
  | nil => simp
  | cons a l ih =>
    intro n
    simp only [List.enumFrom, List.map_cons, List.sum_cons, List.length_cons]
    rw [Finset.sum_range_succ', ih (n + 1)]
    have h1 : ∀ i : ℕ, (a :: l).getD (i + 1) 0 = l.getD i 0 := by
      intro i
      simp [List.getD]
    have h2 : ∀ i : ℕ, ((n + (i + 1) : ℕ) : ℚ) = (((n + 1) + i : ℕ) : ℚ) := by
      intro i
      congr 1
      omega
    simp only [h1, h2]
    simp [List.getD]
    ring

/-- C3: for a non-empty list of noise scores, the composite-noise statistic of
calculate_noise_in_property_list equals the mean over 0-based ranks i of the
score at rank i plus 3/(i+1), divided by the square root of the number of
scores. -/

theorem composite_noise_statistic_formula (l : List ℚ) (h : l ≠ []) :
    calculate_noise_in_property_list l =
      (((∑ i in Finset.range l.length, (l.getD i 0 + 3 / ((i : ℚ) + 1))) /
        (l.length : ℚ) : ℚ) : ℝ) / Real.sqrt ((l.length : ℕ) : ℝ) := by
  have he : (transformedScores l).sum =
      ∑ i in Finset.range l.length, (l.getD i 0 + 3 / ((i : ℚ) + 1)) := by
    have h0 := enumFrom_add_sum l 0
    simpa [transformedScores, List.enum] using h0
  unfold calculate_noise_in_property_list noiseAverage
  rw [he]

/-- Closed instance of the statistic formula at the singleton score list,
discharging the non-emptiness hypothesis. -/

theorem composite_noise_statistic_formula_witness :
    (([1] : List ℚ) ≠ []) ∧
    calculate_noise_in_property_list [1] =
      (((∑ i in Finset.range (List.length ([1] : List ℚ)),
          (([1] : List ℚ).getD i 0 + 3 / ((i : ℚ) + 1))) /
        ((List.length ([1] : List ℚ)) : ℚ) : ℚ) : ℝ) /
        Real.sqrt ((List.length ([1] : List ℚ) : ℕ) : ℝ) :=
  ⟨by decide, composite_noise_statistic_formula [1] (by decide)⟩

/-- C6 counterexample: calling the centroid lookup with a tile id that has no
row in the reference table does not raise any error: the filter finds no row
and the function returns a pair of empty coordinate arrays, which flows on
into the harmonic interpolation.  No LookupError is raised during
construction. -/

theorem missing_centroid_returns_empty :
    get_tile_water_centroid [⟨"55KCB", 146, -18⟩] "99XYZ" = ([], []) := by
  rfl

/-- C6 amended: for any reference table and any tile id with no matching
row, the centroid lookup completes normally and returns empty lat/lon
arrays; it never substitutes another tile's coordinates and never raises. -/

theorem get_tile_water_centroid_missing (table : List CentroidRow)
    (tile_id : String) (h : ∀ r ∈ table, r.name ≠ tile_id) :
    get_tile_water_centroid table tile_id = ([], []) := by
  unfold get_tile_water_centroid
  have hnil : table.filter (fun r => r.name = tile_id) = [] := by
    rw [List.filter_eq_nil_iff]
    intro r hr
    simpa using h r hr
  simp [hnil]

/-- Closed instance of the missing-centroid theorem at a concrete table and
tile id, discharging the no-matching-row hypothesis. -/

theorem get_tile_water_centroid_missing_witness :
    get_tile_water_centroid [⟨"55KCB", 146, -18⟩] "56KLV" = ([], []) :=
  get_tile_water_centroid_missing [⟨"55KCB", 146, -18⟩] "56KLV" (by decide)

/-- C10: the plain-composite selection keeps at most the requested number of
images; together with the dropped remainder it is a permutation of the
input; every kept image has cloud cover at most that of every dropped image
(so exactly the lowest-cloud images are kept); and the selection commutes
with any relabelling of the images that preserves the cloud percentage, so
noise and tide metadata play no role in it. -/

theorem get_composite_selection_lowest_cloud (m : ℕ) (coll : List SceneMeta) :
    (get_composite_selection m coll).length = min m coll.length ∧
    List.Perm (get_composite_selection m coll ++
      (sortByKey SceneMeta.cloudyPixelPercentage coll).drop m) coll ∧
    (∀ x ∈ get_composite_selection m coll,
      ∀ y ∈ (sortByKey SceneMeta.cloudyPixelPercentage coll).drop m,
        x.cloudyPixelPercentage ≤ y.cloudyPixelPercentage) ∧
    (∀ f : SceneMeta → SceneMeta,
      (∀ a, (f a).cloudyPixelPercentage = a.cloudyPixelPercentage) →
      get_composite_selection m (coll.map f) =
        (get_composite_selection m coll).map f) := by
  refine ⟨?_, ?_, ?_, ?_⟩
  · rw [get_composite_selection, List.length_take,
      length_sortByKey SceneMeta.cloudyPixelPercentage coll]
  · rw [get_composite_selection, List.take_append_drop]
    exact sortByKey_perm _ _
  · intro x hx y hy
    have hp := sortByKey_sorted SceneMeta.cloudyPixelPercentage coll
    rw [← List.take_append_drop m
      (sortByKey SceneMeta.cloudyPixelPercentage coll)] at hp
    exact (List.pairwise_append.mp hp).2.2 x hx y hy
  · intro f hf
    rw [get_composite_selection, get_composite_selection,
      sortByKey_map SceneMeta.cloudyPixelPercentage SceneMeta.cloudyPixelPercentage f hf,
      List.map_take]

/-- Closed instance of the selection theorem: its relabelling component
applied to the identity relabelling of a one-image collection, discharging
the cloud-preservation hypothesis. -/

theorem get_composite_selection_lowest_cloud_witness :
    get_composite_selection 1 (List.map id [⟨0, 5, 0, 0, ""⟩]) =
      (get_composite_selection 1 [⟨0, 5, 0, 0, ""⟩]).map id :=
  (get_composite_selection_lowest_cloud 1 [⟨0, 5, 0, 0, ""⟩]).2.2.2 id
    (fun _ => rfl)

theorem below_msl_sorted_neg (props : List TideProp) :
    ∀ e ∈ below_msl_sorted props, e.tideElevation < 0 := by
  intro e he
  have h1 := (mem_sortByKey TideProp.tideElevation _ e).mp he
  have h2 := List.mem_filter.mp h1
  simpa using h2.2

theorem tide_stage_list_subset (order : List String) (min_images : ℕ)
    (props : List TideProp) :
    ∀ e ∈ tide_stage_list order min_images props, e ∈ below_msl_sorted props := by
  unfold tide_stage_list
  suffices hgen : ∀ (ord : List String) (acc : List TideProp),
      (∀ e ∈ acc, e ∈ below_msl_sorted props) →
      ∀ e ∈ ord.foldl (fun acc tt =>
        if acc.length < min_images
        then acc ++ (below_msl_sorted props).filter (fun e => e.tideType = tt)
        else acc) acc, e ∈ below_msl_sorted props by
    exact hgen order [] (by simp)
  intro ord
  induction ord with
  | nil =>
    intro acc hacc e he
    simpa using hacc e (by simpa using he)
  | cons t ts ih =>
    intro acc hacc e he
    rw [List.foldl_cons] at he
    refine ih _ ?_ e he
    intro x hx
    by_cases hlen : acc.length < min_images
    · rw [if_pos hlen] at hx
      rcases List.mem_append.mp hx with hx | hx
      · exact hacc x hx
      · exact (List.mem_filter.mp hx).1
    · rw [if_neg hlen] at hx
      exact hacc x hx

theorem tide_stage_with_incoming_subset (order : List String) (min_images : ℕ)
    (props : List TideProp) :
    ∀ e ∈ tide_stage_with_incoming order min_images props,
      e ∈ below_msl_sorted props := by
  intro e he
  unfold tide_stage_with_incoming at he
  by_cases hlen : (tide_stage_list order min_images props).length < min_images
  · rw [if_pos hlen] at he
    rcases List.mem_append.mp he with he | he
    · exact tide_stage_list_subset order min_images props e he
    · exact (List.mem_filter.mp he).1
  · rw [if_neg hlen] at he
    exact tide_stage_list_subset order min_images props e he

/-- C8 counterexample: an orbit segment whose only image has positive tide
elevation 1 (incoming tide).  All below-MSL stages come up empty, the final
fallback sorts the full unfiltered list and returns that image, so the
selection retains an image whose tide elevation is not negative. -/

theorem low_tide_fallback_keeps_positive_elevation :
    select_low_tide_images tideTypeOrderOutgoing 1 1 [⟨7, 1, INCOMING_TIDE⟩] =
      [⟨7, 1, INCOMING_TIDE⟩] ∧
    ¬ ((⟨7, 1, INCOMING_TIDE⟩ : TideProp).tideElevation < 0) := by
  constructor
  · norm_num [select_low_tide_images, tide_stage_with_incoming, tide_stage_list,
      below_msl_sorted, tideTypeOrderOutgoing, sortByKey, insertLe,
      INCOMING_TIDE, OUTGOING_TIDE, PEAK_LOW_TIDE]
  · norm_num

/-- C8 amended: whenever the per-orbit selection does not enter the final
sort-by-elevation fallback (that is, the tide-type priority stages plus the
incoming-tide fallback already reach min_images), every retained image has
negative (below mean sea level) tide elevation.  The final fallback instead
draws from the full unfiltered list and can retain non-negative
elevations. -/

theorem select_low_tide_images_below_msl (order : List String)
    (min_images max_images : ℕ) (props : List TideProp)
    (h : ¬ (tide_stage_with_incoming order min_images props).length < min_images) :
    ∀ e ∈ select_low_tide_images order min_images max_images props,
      e.tideElevation < 0 := by
  intro e he
  unfold select_low_tide_images at he
  rw [if_neg h] at he
  exact below_msl_sorted_neg props e
    (tide_stage_with_incoming_subset order min_images props e
      (List.mem_of_mem_take he))

/-- Closed instance of the amended low-tide selection theorem at a concrete
one-image orbit segment with negative elevation, discharging both the
no-fallback hypothesis and the membership hypothesis. -/

theorem select_low_tide_images_below_msl_witness :
    (⟨3, -1, OUTGOING_TIDE⟩ : TideProp).tideElevation < 0 :=
  select_low_tide_images_below_msl tideTypeOrderOutgoing 1 1
    [⟨3, -1, OUTGOING_TIDE⟩]
    (by norm_num [tide_stage_with_incoming, tide_stage_list, below_msl_sorted,
      tideTypeOrderOutgoing, sortByKey, insertLe,
      INCOMING_TIDE, OUTGOING_TIDE, PEAK_LOW_TIDE])
    ⟨3, -1, OUTGOING_TIDE⟩
    (by norm_num [select_low_tide_images, tide_stage_with_incoming,
      tide_stage_list, below_msl_sorted, tideTypeOrderOutgoing, sortByKey,
      insertLe, INCOMING_TIDE, OUTGOING_TIDE, PEAK_LOW_TIDE])

/-- C9: the noise score is total: the water-restricted mean is undefined
exactly when the footprint has no water pixels, in which case the score is
the large sentinel 99999999 instead of a null; otherwise the score is
(proportion * 100 + 1.5) raised to the power 0.6. -/

theorem image_noise_total_with_sentinel {n : ℕ} (img : NoiseBands n) :
    (noise_proportion img = none ↔ ∀ p, water_mask img p = false) ∧
    ((∀ p, water_mask img p = false) → calculate_image_noise img = 99999999) ∧
    (∀ v : ℚ, noise_proportion img = some v →
      calculate_image_noise img = ((v : ℝ) * 100 + 3 / 2) ^ ((3 / 5 : ℝ))) := by
  have hiff : noise_proportion img = none ↔ ∀ p, water_mask img p = false := by
    unfold noise_proportion
    by_cases hc : (Finset.univ.filter (fun p => water_mask img p = true)).card = 0
    · rw [if_pos hc]
      simp only [true_iff]
      rw [Finset.card_eq_zero, Finset.filter_eq_empty_iff] at hc
      intro p
      have := hc (Finset.mem_univ p)
      simpa using this
    · rw [if_neg hc]
      constructor
      · intro heq
        exact absurd heq (by simp)
      · intro hall
        exfalso
        apply hc
        rw [Finset.card_eq_zero, Finset.filter_eq_empty_iff]
        intro p _
        simp [hall p]
  refine ⟨hiff, ?_, ?_⟩
  · intro hall
    have hnone : noise_proportion img = none := hiff.mpr hall
    simp [calculate_image_noise, hnone]
  · intro v hv
    simp [calculate_image_noise, hv]

/-- Closed instance of the sentinel theorem at the concrete no-water image,
discharging the no-water-pixels hypothesis. -/

theorem image_noise_total_with_sentinel_witness :
    calculate_image_noise noWaterImage = 99999999 :=
  (image_noise_total_with_sentinel noWaterImage).2.1
    (by
      intro p
      norm_num [water_mask, ndwi, noWaterImage])

theorem focal_max_false {P : Type} [DecidableEq P] (G : RasterGeom P)
    (d : ℚ) (b : P → Bool) (hb : ∀ q, b q = false) :
    ∀ p, focal_max G d b p = false := by
  intro p
  unfold focal_max
  simp [hb]

theorem focal_min_false {P : Type} [DecidableEq P] (G : RasterGeom P)
    (d : ℚ) (b : P → Bool) (hb : ∀ q, b q = false) :
    ∀ p, focal_min G d b p = false := by
  intro p
  unfold focal_min
  have hno : ¬ (∀ q ∈ insert p (G.focal d p), b q = true) := by
    intro hall
    have hp := hall p (Finset.mem_insert_self p _)
    rw [hb p] at hp
    exact Bool.false_ne_true hp
  simp only [decide_eq_false_iff_not]
  exact hno

theorem ddt_mask_false {P : Type} [DecidableEq P] (G : RasterGeom P)
    (az d : ℚ) (b : P → Bool) (hb : ∀ q, b q = false) :
    ∀ p, ddt_mask G az d b p = false := by
  intro p
  unfold ddt_mask
  simp [hb]

theorem get_s2_cloud_shadow_mask_false {P : Type} [DecidableEq P]
    (G : RasterGeom P) (img : CloudImage P)
    (thresh erosion projd buffer : ℚ)
    (h : ∀ q, ¬ thresh < img.probability q) :
    ∀ p, get_s2_cloud_shadow_mask G img thresh erosion projd buffer p = false := by
  have hcloud : ∀ q, decide (thresh < img.probability q) = false := by
    intro q
    simp [h q]
  intro p
  unfold get_s2_cloud_shadow_mask
  simp only []
  by_cases he : (0 : ℚ) < erosion
  · rw [if_pos he]
    exact focal_max_false G buffer _
      (ddt_mask_false G _ _ _
        (focal_max_false G erosion _
          (focal_min_false G erosion _ hcloud))) p
  · rw [if_neg he]
    exact focal_max_false G buffer _ (ddt_mask_false G _ _ _ hcloud) p

/-- C7: the combined cloud mask is the pixel-wise logical OR of the
low-cloud-pass mask and the high-cloud-pass mask, and for an image whose
cloud-probability layer is everywhere below both pass thresholds (35 and 80)
the combined mask is all false. -/

theorem combined_cloud_mask_or {P : Type} [DecidableEq P] (G : RasterGeom P)
    (img : CloudImage P) :
    (∀ p, combined_cloud_mask G img p =
      (low_cloud_mask G img p || high_cloud_mask G img p)) ∧
    ((∀ p, img.probability p < 35 ∧ img.probability p < 80) →
      ∀ p, combined_cloud_mask G img p = false) := by
  have hor : ∀ p, combined_cloud_mask G img p =
      (low_cloud_mask G img p || high_cloud_mask G img p) := by
    intro p
    unfold combined_cloud_mask
    cases hh : high_cloud_mask G img p <;> cases hl : low_cloud_mask G img p <;> simp
  refine ⟨hor, ?_⟩
  intro hbelow p
  rw [hor p]
  have hlow : low_cloud_mask G img p = false :=
    get_s2_cloud_shadow_mask_false G img 35 0 (4 / 10) 150
      (fun q => not_lt.mpr (le_of_lt (hbelow q).1)) p
  have hhigh : high_cloud_mask G img p = false :=
    get_s2_cloud_shadow_mask_false G img 80 300 (3 / 2) 300
      (fun q => not_lt.mpr (le_of_lt (hbelow q).2)) p
  rw [hlow, hhigh]
  rfl

/-- Closed instance of the mask-combination theorem at the concrete clear
image, discharging the below-both-thresholds hypothesis. -/

theorem combined_cloud_mask_or_witness :
    combined_cloud_mask trivialGeom clearImage 0 = false :=
  (combined_cloud_mask_or trivialGeom clearImage).2
    (by
      intro p
      constructor <;> norm_num [clearImage]) 0

theorem find?_eq_of_nodup_keys {P : Type} (l : List (String × (P → Option ℚ)))
    (n : String) (f : P → Option ℚ)
    (hnodup : (l.map Prod.fst).Nodup) (hmem : (n, f) ∈ l) :
    l.find? (fun nb => nb.1 == n) = some (n, f) := by
  induction l with
  | nil => cases hmem
  | cons a l ih =>
    rcases List.mem_cons.mp hmem with rfl | hmem2
    · exact List.find?_cons_of_pos _ (by simp)
    · have hnodup2 : ((a :: l).map Prod.fst).Nodup := hnodup
      rw [List.map_cons, List.nodup_cons] at hnodup2
      have hne : ¬ (a.1 == n) = true := by
        intro heq
        rw [beq_iff_eq] at heq
        exact hnodup2.1 (heq ▸ List.mem_map_of_mem Prod.fst hmem2)
      rw [List.find?_cons]
      simp only [hne, cond_false]
      exact ih hnodup2.2 hmem2

theorem bandValue_of_nodup_keys {P : Type} (img : EEImage P) (n : String)
    (f : P → Option ℚ) (px : P)
    (hnodup : (img.bands.map Prod.fst).Nodup) (hmem : (n, f) ∈ img.bands) :
    bandValue img n px = f px := by
  unfold bandValue getBand
  rw [find?_eq_of_nodup_keys img.bands n f hnodup hmem]
  rfl

theorem reduce_rename_ok {P : Type} (p : ℚ) (label : String)
    (names : List String) (first : EEImage P) (rest : List (EEImage P))
    (hfirst : first.bands.map Prod.fst = names) :
    renameBands names (reducePercentile p label (first :: rest)) =
      .ok ⟨first.bands.map (fun nb =>
            (nb.1, fun px => percentileOfList p (collValues (first :: rest) nb.1 px))),
          fun _ => true⟩ := by
  unfold renameBands reducePercentile
  have hlen : names.length =
      (first.bands.map (fun nb =>
        (nb.1 ++ "_" ++ label,
         fun px => percentileOfList p (collValues (first :: rest) nb.1 px)))).length := by
    rw [List.length_map, ← hfirst, List.length_map]
  rw [if_pos hlen]
  congr 1
  rw [List.map_map]
  show (⟨names.zip (first.bands.map
      (fun nb px => percentileOfList p (collValues (first :: rest) nb.1 px))), _⟩ : EEImage P) = _
  rw [← hfirst, List.zip_map' Prod.fst]

/-- C5 counterexample: on a zero-image collection _create_composite does not
fail with an explicit empty-composite error: reducing the empty collection
yields a band-less image, and what fails is the rename to the 16 Sentinel-2
band names, with a band-count message.  (Under lazy Earth Engine evaluation
the same failure surfaces once the returned composite is evaluated.) -/

theorem create_composite_empty_is_rename_error :
    create_composite id ([] : List (EEImage (Fin 1))) =
      .error "Image.rename: the number of names does not match the number of bands" ∧
    "Image.rename: the number of names does not match the number of bands" ≠
      "empty composite" := by
  constructor
  · rfl
  · decide

/-- C5 amended: for every pixel type and cloud-masking function, the
composite builder applied to a zero-image collection fails and never
produces a raster, but the failure is the band-count error of renaming the
band-less reduce output, not an explicit empty-composite error. -/

theorem create_composite_empty_fails {P : Type}
    (maskClouds : EEImage P → EEImage P) :
    create_composite maskClouds ([] : List (EEImage P)) =
      .error "Image.rename: the number of names does not match the number of bands" :=
  rfl

/-- C4 amended: for a collection whose images carry the 16 standard bands
(and whose cloud-masked versions carry them plus the cloudmask band),
composite A (composite_collection_no_cloud_mask) holds per band the
percentile-50 value of the unmasked collection, while composite B
(composite_collection_with_cloud_mask, which _create_composite only
computes when the collection has more than one image) holds per band,
including the derived cloudmask band, the percentile-15 value of the
cloud-masked collection: the two reductions use different percentiles, not
the same percentile p. -/

theorem composite_reductions_use_p50_and_p15 {P : Type}
    (maskClouds : EEImage P → EEImage P)
    (first : EEImage P) (rest : List (EEImage P))
    (hfirst : first.bands.map Prod.fst = img_bands)
    (hmask : (maskClouds first).bands.map Prod.fst = img_bands ++ ["cloudmask"]) :
    (∀ n ∈ img_bands, ∀ px,
      okBandValue (composite_no_cloud_mask (first :: rest)) n px =
        percentileOfList 50 (collValues (first :: rest) n px)) ∧
    (∀ n ∈ img_bands ++ ["cloudmask"], ∀ px,
      okBandValue (composite_with_cloud_mask maskClouds (first :: rest)) n px =
        percentileOfList 15
          (collValues ((first :: rest).map maskClouds) n px)) := by
  constructor
  · intro n hn px
    rw [composite_no_cloud_mask,
      reduce_rename_ok 50 "p50" img_bands first rest hfirst]
    show bandValue _ n px = _
    rw [← hfirst] at hn
    rcases List.mem_map.mp hn with ⟨nb, hnb, heq⟩
    subst heq
    rw [bandValue_of_nodup_keys _ nb.1
      (fun px => percentileOfList 50 (collValues (first :: rest) nb.1 px)) px
      ?nodupA ?memA]
    case nodupA =>
      show ((first.bands.map _).map Prod.fst).Nodup
      rw [List.map_map]
      exact hfirst ▸ (by decide : img_bands.Nodup)
    case memA =>
      exact List.mem_map_of_mem _ hnb
  · intro n hn px
    rw [composite_with_cloud_mask, List.map_cons,
      reduce_rename_ok 15 "p15" (img_bands ++ ["cloudmask"]) (maskClouds first)
        (rest.map maskClouds) hmask]
    show bandValue _ n px = _
    rw [← hmask] at hn
    rcases List.mem_map.mp hn with ⟨nb, hnb, heq⟩
    subst heq
    rw [bandValue_of_nodup_keys _ nb.1
      (fun px => percentileOfList 15
        (collValues (maskClouds first :: rest.map maskClouds) nb.1 px)) px
      ?nodupB ?memB]
    case nodupB =>
      show (((maskClouds first).bands.map _).map Prod.fst).Nodup
      rw [List.map_map]
      exact hmask ▸ (by decide : (img_bands ++ ["cloudmask"]).Nodup)
    case memB =>
      exact List.mem_map_of_mem _ hnb

/-- C4 counterexample: on the three-image collection with band values 0, 50
and 100 and a cloud mask that changes no band values, composite A holds 50
on band B1 (the 50th percentile) while composite B holds 0 (the 15th
percentile) over the very same values, so A and B are not reductions at one
and the same percentile p. -/

theorem composite_percentile_mismatch :
    okBandValue (composite_no_cloud_mask
      [constImage 0, constImage 50, constImage 100]) "B1" 0 = some 50 ∧
    okBandValue (composite_with_cloud_mask addZeroCloudmask
      [constImage 0, constImage 50, constImage 100]) "B1" 0 = some 0 := by
  have hvals : collValues [constImage 0, constImage 50, constImage 100] "B1" 0 =
      [0, 50, 100] := by
    norm_num [collValues, bandValue, getBand, constImage, img_bands,
      List.find?_cons, List.filterMap_cons]
  have hvalsM : collValues
      ([constImage 0, constImage 50, constImage 100].map addZeroCloudmask)
      "B1" 0 = [0, 50, 100] := by
    norm_num [collValues, bandValue, getBand, constImage, addZeroCloudmask,
      addBands, img_bands, List.find?_cons, List.filterMap_cons]
  constructor
  · rw [composite_no_cloud_mask,
      reduce_rename_ok 50 "p50" img_bands (constImage 0)
        [constImage 50, constImage 100] (by rfl)]
    show bandValue _ "B1" 0 = _
    rw [bandValue_of_nodup_keys _ "B1"
      (fun px => percentileOfList 50
        (collValues [constImage 0, constImage 50, constImage 100] "B1" px)) 0
      ?nodupC ?memC]
    · rw [hvals]
      norm_num [percentileOfList, sortByKey, insertLe]
    case nodupC =>
      rw [List.map_map]
      exact (by decide : img_bands.Nodup)
    case memC =>
      have hm : ("B1", (fun _ => some (0 : ℚ) : Fin 1 → Option ℚ)) ∈
          (constImage 0).bands :=
        List.mem_cons_self _ _
      exact List.mem_map_of_mem (fun nb =>
        (nb.1, fun px => percentileOfList 50
          (collValues [constImage 0, constImage 50, constImage 100] nb.1 px))) hm
  · rw [composite_with_cloud_mask, List.map_cons,
      reduce_rename_ok 15 "p15" (img_bands ++ ["cloudmask"])
        (addZeroCloudmask (constImage 0))
        ([constImage 50, constImage 100].map addZeroCloudmask) (by rfl)]
    show bandValue _ "B1" 0 = _
    rw [bandValue_of_nodup_keys _ "B1"
      (fun px => percentileOfList 15
        (collValues (addZeroCloudmask (constImage 0) ::
          [constImage 50, constImage 100].map addZeroCloudmask) "B1" px)) 0
      ?nodupD ?memD]
    · rw [show (addZeroCloudmask (constImage 0) ::
          [constImage 50, constImage 100].map addZeroCloudmask) =
          [constImage 0, constImage 50, constImage 100].map addZeroCloudmask
        from rfl, hvalsM]
      norm_num [percentileOfList, sortByKey, insertLe]
    case nodupD =>
      rw [List.map_map]
      exact (by decide : (img_bands ++ ["cloudmask"]).Nodup)
    case memD =>
      have hm : ("B1", (fun _ => some (0 : ℚ) : Fin 1 → Option ℚ)) ∈
          (addZeroCloudmask (constImage 0)).bands :=
        List.mem_cons_self _ _
      exact List.mem_map_of_mem (fun nb =>
        (nb.1, fun px => percentileOfList 15
          (collValues (addZeroCloudmask (constImage 0) ::
            [constImage 50, constImage 100].map addZeroCloudmask) nb.1 px))) hm

/-- Closed instance of the two-percentile theorem at a concrete three-image
collection, discharging the band-name hypotheses and the membership
hypothesis. -/

theorem composite_reductions_use_p50_and_p15_witness :
    okBandValue (composite_no_cloud_mask
      [constImage 0, constImage 50, constImage 100]) "B2" 0 =
      percentileOfList 50
        (collValues [constImage 0, constImage 50, constImage 100] "B2" 0) :=
  (composite_reductions_use_p50_and_p15 addZeroCloudmask (constImage 0)
    [constImage 50, constImage 100] rfl rfl).1 "B2" (by decide) 0
